import Mathlib

/-
Shallow embedding of the mini-di dependency container (src/lib.rs and
src/service_locator.rs).  Runtime types are modelled by the inductive `Ty`
(with an `arc` former, since TypeId::of::<Arc<T>> differs from
TypeId::of::<T>).  A boxed `dyn Any` value is a `Dyn`: the tag of its true
runtime type plus a payload naturals that stands for the value, or, for
reference-counted handles, for the identity of the pointed-to instance.
Stored constructor closures are deep-embedded as `CProg` (return a fixed
boxed value, allocate a fresh instance, or resolve a dependency and
continue), and the interior-mutable singleton cells live in an explicit
state `St`.  Resolution is evaluated with fuel; `none` at the outer level
means divergence (unbounded recursion), while the inner `Option Nat`
mirrors the `Option<T>` returned by `Resolver::resolve`.
-/

namespace MiniDi

/-- Runtime type identifier (TypeId).  The `arc` former records that
`Arc<T>` has a TypeId distinct from that of `T`. -/
inductive Ty : Type where
  | base (n : Nat)
  | arc (t : Ty)
deriving DecidableEq, Repr

/-- A type-erased boxed value (`Box<dyn Any>`): the tag of the true runtime
type of the content and a numeric payload (for shared handles the payload is
the identity of the underlying instance). -/
structure Dyn where
  tag : Ty
  val : Nat
deriving DecidableEq, Repr

/-- Models `Box<dyn Any>::downcast::<T>().ok().map(|v| *v)`: succeeds with
the payload iff the true runtime tag of the box is the requested type. -/
def downcast (t : Ty) (d : Dyn) : Option Nat :=
  if d.tag = t then some d.val else none

/-- Mutable state threaded through a resolution: the contents of the
singleton cells (cell id to cached handle, absent meaning the cell still
holds `None`) and a counter supplying fresh instance identities for
allocations such as `Arc::new`. -/
structure St where
  cells : List (Nat × Dyn)
  nextId : Nat
deriving DecidableEq, Repr

/-- Look up a singleton cell by id. -/
def lookupN : List (Nat × Dyn) → Nat → Option Dyn
  | [], _ => none
  | (c, d) :: rest, c0 => if c0 = c then some d else lookupN rest c0

/-- Overwrite (or create) the binding of one cell id. -/
def setCellList : List (Nat × Dyn) → Nat → Dyn → List (Nat × Dyn)
  | [], c, d => [(c, d)]
  | (c1, d1) :: rest, c, d =>
    if c = c1 then (c, d) :: rest else (c1, d1) :: setCellList rest c d

/-- Models `*singleton.lock().unwrap() = Some(value.clone())`. -/
def writeCell (σ : St) (c : Nat) (d : Dyn) : St :=
  { σ with cells := setCellList σ.cells c d }

/-- Deep embedding of the stored constructor closures
`Fn(&Resolver) -> Box<dyn Any>`.  `ret` returns a fixed boxed value (the
body of a `register_clone` closure), `fresh` allocates a new instance with
a fresh identity (the effect of `Arc::new(T::construct(..))` for a
dependency-free `T::construct`), and `resolveThen` calls
`resolver.resolve::<t>()` and continues with the resulting `Option`
payload (the shape of a `Construct::construct` body). -/
inductive CProg : Type where
  | ret (d : Dyn)
  | fresh (tag : Ty)
  | resolveThen (t : Ty) (k : Option Nat → CProg)

/-- A stored table entry.  `prog` is a plain constructor closure;
`singleton` is the closure built by `register_singleton` or
`Singleton::construct_with`, owning one memoization cell (identified by id
into `St.cells`) around an inner constructor. -/
inductive Entry : Type where
  | prog (p : CProg)
  | singleton (cell : Nat) (inner : CProg)

/-- Look up a constructor entry in the type-keyed table
(`BTreeMap<TypeId, Constructor>::get`). -/
def lookupEntries : List (Ty × Entry) → Ty → Option Entry
  | [], _ => none
  | (t1, e) :: rest, t => if t = t1 then some e else lookupEntries rest t

/-- A value of some type implementing `GetConstructor`: the four impls in
the source are `()`, `Container<P>` (owned), `&Container<P>` and
`Arc<G>`. -/
inductive GetCtor : Type where
  | unit
  | container (cs : List (Ty × Entry)) (parent : GetCtor)
  | contRef (cs : List (Ty × Entry)) (parent : GetCtor)
  | arc (g : GetCtor)

/-- The four `GetConstructor::get_constructor` impls.  For `()` the lookup
fails; for `Container` and `&Container` the bodies are the (literally
duplicated) `self.constructors.get(..).cloned().or(self.parent.get_constructor(..))`;
for `Arc<G>` the call is forwarded through `Deref`. -/
def get_constructor : GetCtor → Ty → Option Entry
  | .unit, _ => none
  | .container cs p, t => (lookupEntries cs t).or (get_constructor p t)
  | .contRef cs p, t => (lookupEntries cs t).or (get_constructor p t)
  | .arc g, t => get_constructor g t

/-- `Container<P>`: the type-keyed constructor table plus the parent used
on local miss. -/
structure Container where
  constructors : List (Ty × Entry)
  parent : GetCtor

/-- `Container::new()`: no parent, empty table. -/
def Container.new : Container := { constructors := [], parent := .unit }

/-- `Container::with_parent(parent)`: empty table over the given upstream. -/
def with_parent (parent : GetCtor) : Container :=
  { constructors := [], parent := parent }

/-- `Container::as_resolver()`: a resolver whose lookups use the
`GetConstructor` impl of `Container<P>` itself. -/
def as_resolver (c : Container) : GetCtor :=
  .container c.constructors c.parent

/-- `Error::AlreadyRegistered`. -/
inductive Error : Type where
  | alreadyRegistered
deriving DecidableEq, Repr

/-- `BTreeMap::insert`: stores the new value under the key, returning the
previously stored value if the key was already present (the map then holds
the NEW value). -/
def insertC : List (Ty × Entry) → Ty → Entry → Option Entry × List (Ty × Entry)
  | [], t, e => (none, [(t, e)])
  | (t1, e1) :: rest, t, e =>
    if t = t1 then (some e1, (t, e) :: rest)
    else
      let r := insertC rest t e
      (r.1, (t1, e1) :: r.2)

/-- `Container::register_constructor`: performs the `BTreeMap::insert` and
maps its result, `Some(_)` to `Err(AlreadyRegistered)` and `None` to
`Ok(())`.  The returned container reflects the table AFTER the insert in
both cases, exactly as the Rust method leaves `self.constructors`. -/
def register_constructor (c : Container) (t : Ty) (e : Entry) :
    Except Error Unit × Container :=
  let r := insertC c.constructors t e
  (match r.1 with
   | some _ => .error .alreadyRegistered
   | none => .ok (),
   { c with constructors := r.2 })

/-- `Container::register_clone(value)`: stores a closure returning a fresh
copy of the captured value on every call. -/
def register_clone (c : Container) (t : Ty) (v : Nat) : Except Error Unit × Container :=
  register_constructor c t (.prog (.ret ⟨t, v⟩))

/-- `Container::register_construct::<T>()` and the other non-singleton
registration surface: stores the constructor recipe of the registered type
under its key. -/
def register_construct (c : Container) (t : Ty) (p : CProg) : Except Error Unit × Container :=
  register_constructor c t (.prog p)

/-- `Container::register_singleton::<T>()`: wraps the inner constructor of
`T` in a memoization cell and registers the result under the key of
`Arc<T>`, not of `T`. -/
def register_singleton (c : Container) (t : Ty) (cell : Nat) (inner : CProg) :
    Except Error Unit × Container :=
  register_constructor c (.arc t) (.singleton cell inner)

/-- Evaluate a constructor program against the resolver `root`, with fuel
bounding the depth of nested `resolve` calls.  The `resolveThen` case
inlines the body of `Resolver::resolve`: look the key up through
`get_constructor` on the ORIGINAL resolver, then invoke the found closure
with that same resolver and downcast the produced box.  For a singleton
entry the closure first reads its cell under the lock (the guard is
dropped again at the end of the `if let`); on a miss it runs the inner
constructor with no lock held and then re-locks to store the result before
returning it. -/
def evalProg : Nat → CProg → GetCtor → St → Option (Dyn × St)
  | _, .ret d, _, σ => some (d, σ)
  | _, .fresh tag, _, σ => some (⟨tag, σ.nextId⟩, { σ with nextId := σ.nextId + 1 })
  | 0, .resolveThen _ _, _, _ => none
  | f + 1, .resolveThen t k, root, σ =>
    match get_constructor root t with
    | none => evalProg f (k none) root σ
    | some (.prog p) =>
      match evalProg f p root σ with
      | none => none
      | some (d, σ1) => evalProg f (k (downcast t d)) root σ1
    | some (.singleton c inner) =>
      match lookupN σ.cells c with
      | some d => evalProg f (k (downcast t d)) root σ
      | none =>
        match evalProg f inner root σ with
        | none => none
        | some (d, σ1) => evalProg f (k (downcast t d)) root (writeCell σ1 c d)

/-- `Resolver::resolve::<T>()`: `self.0.get_constructor(&TypeId::of::<T>())
.and_then(|ctor| ctor(self).downcast::<T>().ok()).map(|v| *v)`.  The outer
`Option` is the fuel bound (`none` meaning the evaluation did not finish
within the given nesting depth); the inner `Option Nat` is the value the
Rust call returns.  Note the closure is invoked with the original resolver
`root`, and a singleton cell write persists even if the final downcast
fails. -/
def resolve (fuel : Nat) (root : GetCtor) (t : Ty) (σ : St) :
    Option (Option Nat × St) :=
  match get_constructor root t with
  | none => some (none, σ)
  | some (.prog p) =>
    (evalProg fuel p root σ).map (fun r => (downcast t r.1, r.2))
  | some (.singleton c inner) =>
    match lookupN σ.cells c with
    | some d => some (downcast t d, σ)
    | none =>
      (evalProg fuel inner root σ).map
        (fun r => (downcast t r.1, writeCell r.2 c r.1))

/-- Sanity of the inlining in `evalProg`: a `resolveThen` step is exactly a
nested call of `resolve` followed by the continuation. -/
theorem resolveThen_eq_resolve (f : Nat) (t : Ty) (k : Option Nat → CProg)
    (root : GetCtor) (σ : St) :
    evalProg (f + 1) (.resolveThen t k) root σ =
      match resolve f root t σ with
      | none => none
      | some (r, σ1) => evalProg f (k r) root σ1 := by
  cases hg : get_constructor root t with
  | none => simp [evalProg, resolve, hg]
  | some e =>
    cases e with
    | prog p =>
      cases hp : evalProg f p root σ with
      | none => simp [evalProg, resolve, hg, hp]
      | some r => cases r with
        | mk d σ1 => simp [evalProg, resolve, hg, hp]
    | singleton c inner =>
      cases hc : lookupN σ.cells c with
      | some d => simp [evalProg, resolve, hg, hc]
      | none =>
        cases hp : evalProg f inner root σ with
        | none => simp [evalProg, resolve, hg, hc, hp]
        | some r => cases r with
          | mk d σ1 => simp [evalProg, resolve, hg, hc, hp]

/-- The previous value reported by `BTreeMap::insert` is exactly the result
of a lookup for the key before the insert. -/
theorem insertC_fst (cs : List (Ty × Entry)) (t : Ty) (e : Entry) :
    (insertC cs t e).1 = lookupEntries cs t := by
  induction cs with
  | nil => rfl
  | cons hd rest ih =>
    cases hd with
    | mk t1 e1 =>
      by_cases h : t = t1
      · simp [insertC, lookupEntries, h]
      · simp [insertC, lookupEntries, h, ih]

/-- After `BTreeMap::insert`, looking the key up yields the NEW value. -/
theorem lookupEntries_insertC (cs : List (Ty × Entry)) (t : Ty) (e : Entry) :
    lookupEntries (insertC cs t e).2 t = some e := by
  induction cs with
  | nil => simp [insertC, lookupEntries]
  | cons hd rest ih =>
    cases hd with
    | mk t1 e1 =>
      by_cases h : t = t1
      · simp [insertC, lookupEntries, h]
      · simp [insertC, lookupEntries, h, ih]

/-- A lookup for a different key is unchanged by `BTreeMap::insert`. -/
theorem lookupEntries_insertC_ne (cs : List (Ty × Entry)) (t t0 : Ty) (e : Entry)
    (h : t0 ≠ t) :
    lookupEntries (insertC cs t e).2 t0 = lookupEntries cs t0 := by
  induction cs with
  | nil => simp [insertC, lookupEntries, h]
  | cons hd rest ih =>
    cases hd with
    | mk t1 e1 =>
      by_cases h1 : t = t1
      · subst h1; simp [insertC, lookupEntries, h]
      · by_cases h0 : t0 = t1
        · simp [insertC, lookupEntries, h1, h0]
        · simp [insertC, lookupEntries, h1, h0, ih]

/-- After storing into a cell, reading that cell yields the stored value. -/
theorem lookupN_setCellList (l : List (Nat × Dyn)) (c : Nat) (d : Dyn) :
    lookupN (setCellList l c d) c = some d := by
  induction l with
  | nil => simp [setCellList, lookupN]
  | cons hd rest ih =>
    cases hd with
    | mk c1 d1 =>
      by_cases h : c = c1
      · simp [setCellList, lookupN, h]
      · simp [setCellList, lookupN, h, ih]

/-- No runtime type equals its own shared-handle type: the TypeId of
`Arc<T>` differs from that of `T`. -/
theorem arc_ne (t : Ty) : Ty.arc t ≠ t := by
  induction t with
  | base n => intro h; exact Ty.noConfusion h
  | arc s ih => intro h; exact ih (Ty.arc.inj h)

/-- Downcasting a box whose true type is the requested one succeeds with
the payload. -/
theorem downcast_self (t : Ty) (v : Nat) : downcast t ⟨t, v⟩ = some v := by
  simp [downcast]

/-- A successful downcast determines the box completely. -/
theorem downcast_eq_some (t : Ty) (d : Dyn) (v : Nat)
    (h : downcast t d = some v) : d = ⟨t, v⟩ := by
  unfold downcast at h
  by_cases ht : d.tag = t
  · simp [ht] at h
    cases d
    simp_all
  · simp [ht] at h

/-- A successful registration means the key was absent before. -/
theorem register_ok_lookup (c : Container) (t : Ty) (e : Entry)
    (h : (register_constructor c t e).1 = .ok ()) :
    lookupEntries c.constructors t = none := by
  unfold register_constructor at h
  rw [← insertC_fst c.constructors t e]
  cases hi : (insertC c.constructors t e).1 with
  | none => rfl
  | some e1 => simp [hi] at h

/-
Interleaving model for the first construction of a singleton cell.  The
closure stored by `register_singleton` (lib.rs) and by
`Singleton::construct_with` (service_locator.rs) compiles to three atomic
sections separated by points where no lock is held:

  check:     `if let Some(arc) = &*singleton.lock().unwrap() { return
             Box::new(arc.clone()); }` — the guard is a temporary of the
             `if let` scrutinee and is dropped when the `if let` ends;
  construct: `let value = Arc::new(T::construct(locator));` respectively
             `let value = constructor(locator);` — executed with NO lock
             held; allocation of the new instance is modelled by taking a
             fresh identity from a shared counter;
  store:     `*singleton.lock().unwrap() = Some(value.clone());` followed
             by returning the value — a second, separate lock acquisition.

Two callers race through these sections; a schedule is a list of booleans
selecting which thread performs its next atomic section.
-/

/-- Program counter of one caller inside the singleton closure. -/
inductive SPhase : Type where
  | check
  | construct
  | store
  | done
deriving DecidableEq, Repr

/-- One caller: its next atomic section and the handle it has locally. -/
structure SThread where
  phase : SPhase
  got : Option Nat
deriving DecidableEq, Repr

/-- Shared state plus the two callers: the singleton cell, the fresh
instance-identity counter (its final value counts how many instances were
constructed), and both threads. -/
structure SSys where
  cell : Option Nat
  nextId : Nat
  thA : SThread
  thB : SThread
deriving DecidableEq, Repr

/-- One atomic section of one caller, as described above. -/
def stepThread (cell : Option Nat) (nid : Nat) (th : SThread) :
    Option Nat × Nat × SThread :=
  match th.phase with
  | .check =>
    match cell with
    | some v => (cell, nid, ⟨.done, some v⟩)
    | none => (cell, nid, ⟨.construct, th.got⟩)
  | .construct => (cell, nid + 1, ⟨.store, some nid⟩)
  | .store => (th.got, nid, ⟨.done, th.got⟩)
  | .done => (cell, nid, th)

/-- Let the selected thread perform its next atomic section. -/
def sstep (s : SSys) (which : Bool) : SSys :=
  if which then
    let r := stepThread s.cell s.nextId s.thB
    { cell := r.1, nextId := r.2.1, thA := s.thA, thB := r.2.2 }
  else
    let r := stepThread s.cell s.nextId s.thA
    { cell := r.1, nextId := r.2.1, thA := r.2.2, thB := s.thB }

/-- Run a schedule. -/
def srun (sched : List Bool) (s : SSys) : SSys :=
  match sched with
  | [] => s
  | w :: rest => srun rest (sstep s w)

/-- Both callers about to perform their first resolution of the singleton:
empty cell, no instance constructed yet. -/
def sInit : SSys := ⟨none, 0, ⟨.check, none⟩, ⟨.check, none⟩⟩

/-- Parent registry for the resolution-context scenario of claim C5: `t` is
registered with a strategy that resolves `t2` and returns the obtained
payload under tag `t`; `t2` is registered with a clone-style entry for the
value `a`. -/
def ctxParent (t t2 : Ty) (a : Nat) : Container :=
  { constructors := [(t, .prog (.resolveThen t2 (fun r => .ret ⟨t, r.getD 0⟩))),
                     (t2, .prog (.ret ⟨t2, a⟩))],
    parent := .unit }

/-- Child registry over `ctxParent`: locally shadows `t2` with the value
`b`, holds no local entry for `t`, and keeps the parent as upstream by
borrowed reference. -/
def ctxChild (t t2 : Ty) (a b : Nat) : Container :=
  { constructors := [(t2, .prog (.ret ⟨t2, b⟩))],
    parent := .contRef (ctxParent t t2 a).constructors (ctxParent t t2 a).parent }

/-- Unfolding lemma: resolution of a type with no entry in the chain. -/
theorem resolve_eq_none (fuel : Nat) (root : GetCtor) (t : Ty) (σ : St)
    (hget : get_constructor root t = none) :
    resolve fuel root t σ = some (none, σ) := by
  unfold resolve
  rw [hget]

/-- Unfolding lemma: resolution through a plain constructor entry. -/
theorem resolve_eq_prog (fuel : Nat) (root : GetCtor) (t : Ty) (σ : St) (p : CProg)
    (hget : get_constructor root t = some (.prog p)) :
    resolve fuel root t σ
      = (evalProg fuel p root σ).map (fun r => (downcast t r.1, r.2)) := by
  unfold resolve
  rw [hget]

/-- Unfolding lemma: resolution through a singleton entry. -/
theorem resolve_eq_singleton (fuel : Nat) (root : GetCtor) (t : Ty) (σ : St)
    (c : Nat) (inner : CProg)
    (hget : get_constructor root t = some (.singleton c inner)) :
    resolve fuel root t σ
      = match lookupN σ.cells c with
        | some d => some (downcast t d, σ)
        | none =>
          (evalProg fuel inner root σ).map
            (fun r => (downcast t r.1, writeCell r.2 c r.1)) := by
  unfold resolve
  rw [hget]

/-- Unfolding lemma: a fixed boxed value needs no fuel. -/
theorem evalProg_ret (f : Nat) (d : Dyn) (root : GetCtor) (σ : St) :
    evalProg f (.ret d) root σ = some (d, σ) := by
  cases f <;> rfl

/-- Unfolding lemma: an allocation takes the next fresh identity. -/
theorem evalProg_fresh (f : Nat) (tag : Ty) (root : GetCtor) (σ : St) :
    evalProg f (.fresh tag) root σ
      = some (⟨tag, σ.nextId⟩, { σ with nextId := σ.nextId + 1 }) := by
  cases f <;> rfl

/-- Claim C1 (code behaviour at the failing input): registering the type
key `base 0` twice, first with a strategy yielding 1 and then with a
strategy yielding 2, makes the second call return `AlreadyRegistered`, yet
the `BTreeMap::insert` has already REPLACED the stored entry, so the
subsequent resolution invokes the second strategy and yields 2 — not the
first strategy, as the claim and the spec require. -/
theorem c1_duplicate_overwrites :
    (register_constructor Container.new (.base 0) (.prog (.ret ⟨.base 0, 1⟩))).1 = .ok ()
    ∧ (register_constructor
        (register_constructor Container.new (.base 0) (.prog (.ret ⟨.base 0, 1⟩))).2
        (.base 0) (.prog (.ret ⟨.base 0, 2⟩))).1 = .error .alreadyRegistered
    ∧ resolve 0
        (as_resolver (register_constructor
          (register_constructor Container.new (.base 0) (.prog (.ret ⟨.base 0, 1⟩))).2
          (.base 0) (.prog (.ret ⟨.base 0, 2⟩))).2)
        (.base 0) ⟨[], 0⟩ = some (some 2, ⟨[], 0⟩) :=
  ⟨rfl, rfl, rfl⟩

/-- Claim C2 is refuted: in the interleaving model of the compiled
singleton closure, the fully interleaved schedule of two first resolutions
(both check the empty cell, then both construct, then both store) ends
with TWO constructed instances (the fresh-identity counter reads 2, not 1)
and the two callers hold handles to DIFFERENT underlying instances —
because the exclusive lock is dropped between the emptiness check and the
construction. -/
theorem c2_counterexample :
    (srun [false, true, false, true, false, true] sInit).nextId = 2
    ∧ (srun [false, true, false, true, false, true] sInit).thA.got = some 0
    ∧ (srun [false, true, false, true, false, true] sInit).thB.got = some 1
    ∧ (srun [false, true, false, true, false, true] sInit).thA.got
        ≠ (srun [false, true, false, true, false, true] sInit).thB.got := by
  decide

/-- Claim C2 as amended: the singleton closure releases the lock between
the emptiness check and the construction and re-acquires it only to store,
so when one caller completes its first resolution before the other starts,
exactly one instance is constructed and both observe it; but under a fully
interleaved concurrent first resolution each caller that saw the empty
cell constructs its own instance — two instances exist, the callers
observe different handles, and the cell retains the last one stored.
Moreover a construction strategy that begins by resolving the same
singleton type again re-enters the still-empty cell instead of blocking:
the resolution never completes, returning no result at every
nesting-depth bound (the unbounded recursion of the code, in place of the
deadlock asserted by the original claim). -/
theorem c2_amended
    (root : GetCtor) (t : Ty) (cell : Nat) (k : Option Nat → CProg) (σ : St)
    (hget : get_constructor root t = some (.singleton cell (.resolveThen t k)))
    (hcell : lookupN σ.cells cell = none) :
    ((srun [false, false, false, true] sInit).nextId = 1
      ∧ (srun [false, false, false, true] sInit).thA.got = some 0
      ∧ (srun [false, false, false, true] sInit).thB.got = some 0
      ∧ (srun [false, false, false, true] sInit).cell = some 0)
    ∧ ((srun [false, true, false, true, false, true] sInit).nextId = 2
      ∧ (srun [false, true, false, true, false, true] sInit).thA.got = some 0
      ∧ (srun [false, true, false, true, false, true] sInit).thB.got = some 1
      ∧ (srun [false, true, false, true, false, true] sInit).cell = some 1)
    ∧ ∀ fuel, resolve fuel root t σ = none := by
  have hdiv : ∀ fuel, evalProg fuel (.resolveThen t k) root σ = none := by
    intro fuel
    induction fuel with
    | zero => rfl
    | succ f ih =>
      rw [resolveThen_eq_resolve f t k root σ,
        resolve_eq_singleton f root t σ cell (.resolveThen t k) hget]
      simp [hcell, ih]
  refine ⟨by decide, by decide, ?_⟩
  intro fuel
  rw [resolve_eq_singleton fuel root t σ cell (.resolveThen t k) hget]
  simp [hcell, hdiv]

/-- Witness for the amended claim C2 at a concrete input: a registry with
one singleton entry for `Arc<base 0>` whose inner strategy starts by
resolving `Arc<base 0>` itself; the cyclic resolution returns no result at
nesting depth 3 (and, by the theorem, at every depth). -/
theorem c2_witness :
    ((srun [false, false, false, true] sInit).nextId = 1
      ∧ (srun [false, false, false, true] sInit).thA.got = some 0
      ∧ (srun [false, false, false, true] sInit).thB.got = some 0
      ∧ (srun [false, false, false, true] sInit).cell = some 0)
    ∧ ((srun [false, true, false, true, false, true] sInit).nextId = 2
      ∧ (srun [false, true, false, true, false, true] sInit).thA.got = some 0
      ∧ (srun [false, true, false, true, false, true] sInit).thB.got = some 1
      ∧ (srun [false, true, false, true, false, true] sInit).cell = some 1)
    ∧ resolve 3
        (.container [(Ty.arc (.base 0), Entry.singleton 0
          (.resolveThen (.arc (.base 0)) (fun r => .ret ⟨.arc (.base 0), r.getD 0⟩)))] .unit)
        (.arc (.base 0)) ⟨[], 0⟩ = none := by
  have h := c2_amended
    (.container [(Ty.arc (.base 0), Entry.singleton 0
      (.resolveThen (.arc (.base 0)) (fun r => .ret ⟨.arc (.base 0), r.getD 0⟩)))] .unit)
    (.arc (.base 0)) 0 (fun r => .ret ⟨.arc (.base 0), r.getD 0⟩) ⟨[], 0⟩ rfl rfl
  exact ⟨h.1, h.2.1, h.2.2 3⟩

/-- Claim C3: for a singleton entry reachable from the resolver, a first
successful sequential resolution leaves the memoization cell populated
with exactly the returned handle, and every further sequential resolution
returns a handle to the identical underlying instance while leaving the
whole state unchanged — so the cell transitions to populated at most once
and the inner construction strategy runs at most once. -/
theorem c3_singleton_sequential_identity
    (root : GetCtor) (t : Ty) (cell : Nat) (inner : CProg)
    (σ σ1 : St) (fuel v : Nat)
    (hget : get_constructor root t = some (.singleton cell inner))
    (hfirst : resolve fuel root t σ = some (some v, σ1)) :
    lookupN σ1.cells cell = some ⟨t, v⟩
    ∧ ∀ fuel2, resolve fuel2 root t σ1 = some (some v, σ1) := by
  rw [resolve_eq_singleton fuel root t σ cell inner hget] at hfirst
  have hcellpop : lookupN σ1.cells cell = some ⟨t, v⟩ := by
    cases hc : lookupN σ.cells cell with
    | some d =>
      simp only [hc, Option.some.injEq, Prod.mk.injEq] at hfirst
      obtain ⟨hd, hσ⟩ := hfirst
      rw [downcast_eq_some t d v hd] at hc
      rw [← hσ]
      exact hc
    | none =>
      simp only [hc] at hfirst
      cases hp : evalProg fuel inner root σ with
      | none => simp [hp] at hfirst
      | some r =>
        simp only [hp, Option.map_some', Option.some.injEq, Prod.mk.injEq] at hfirst
        obtain ⟨hd, hσ⟩ := hfirst
        rw [← hσ]
        show lookupN (setCellList r.2.cells cell r.1) cell = some ⟨t, v⟩
        rw [lookupN_setCellList, downcast_eq_some t r.1 v hd]
  refine ⟨hcellpop, ?_⟩
  intro fuel2
  rw [resolve_eq_singleton fuel2 root t σ1 cell inner hget]
  simp [hcellpop, downcast_self]

/-- Claim C4: with `t` registered in the parent and a child created over
that parent, the child resolver with no local entry finds exactly the
entry of the parent (and, when that entry is a clone-style entry for `a`,
returns `a`); after registering `t` locally on the child the registration
succeeds, the lookup finds the local entry, and resolution returns the
local value `b`, never the value of the parent. -/
theorem c4_child_shadowing
    (p : Container) (t : Ty) (ep : Entry) (b : Nat) (σ : St) (fuel : Nat)
    (hp : lookupEntries p.constructors t = some ep) :
    get_constructor (as_resolver (with_parent (.contRef p.constructors p.parent))) t = some ep
    ∧ (register_clone (with_parent (.contRef p.constructors p.parent)) t b).1 = .ok ()
    ∧ get_constructor
        (as_resolver (register_clone (with_parent (.contRef p.constructors p.parent)) t b).2) t
        = some (.prog (.ret ⟨t, b⟩))
    ∧ (∀ a, ep = .prog (.ret ⟨t, a⟩) →
        resolve fuel (as_resolver (with_parent (.contRef p.constructors p.parent))) t σ
          = some (some a, σ))
    ∧ resolve fuel
        (as_resolver (register_clone (with_parent (.contRef p.constructors p.parent)) t b).2) t σ
        = some (some b, σ) := by
  have hchild : get_constructor
      (as_resolver (with_parent (.contRef p.constructors p.parent))) t = some ep := by
    simp [as_resolver, with_parent, get_constructor, lookupEntries, hp, Option.or]
  have hreg : get_constructor
      (as_resolver (register_clone (with_parent (.contRef p.constructors p.parent)) t b).2) t
      = some (.prog (.ret ⟨t, b⟩)) := by
    simp [as_resolver, register_clone, register_constructor, with_parent, get_constructor]
    simp [insertC, lookupEntries, Option.or]
  refine ⟨hchild, rfl, hreg, ?_, ?_⟩
  · intro a ha
    subst ha
    unfold resolve
    rw [hchild]
    simp [evalProg, downcast_self]
  · unfold resolve
    rw [hreg]
    simp [evalProg, downcast_self]

/-- Claim C5: when the entry for `t` is found in the parent but resolution
was started on the child, the strategy of that entry runs with the
resolver still bound to the CHILD, so its nested resolution of `t2` sees
the local entry of the child (value `b`) shadowing the entry of the parent
(value `a`); starting the same resolution directly on the parent yields
`a` instead. -/
theorem c5_resolution_context (t t2 : Ty) (a b : Nat) (σ : St) (fuel : Nat)
    (hne : t ≠ t2) :
    resolve (fuel + 1) (as_resolver (ctxChild t t2 a b)) t σ = some (some b, σ)
    ∧ resolve (fuel + 1) (as_resolver (ctxParent t t2 a)) t σ = some (some a, σ) := by
  have hne2 : t2 ≠ t := Ne.symm hne
  have hgetc : get_constructor (as_resolver (ctxChild t t2 a b)) t
      = some (.prog (.resolveThen t2 (fun r => .ret ⟨t, r.getD 0⟩))) := by
    simp [as_resolver, ctxChild, ctxParent, get_constructor, lookupEntries, hne, Option.or]
  have hgetc2 : get_constructor (as_resolver (ctxChild t t2 a b)) t2
      = some (.prog (.ret ⟨t2, b⟩)) := by
    simp [as_resolver, ctxChild, get_constructor, lookupEntries, Option.or]
  have hgetp : get_constructor (as_resolver (ctxParent t t2 a)) t
      = some (.prog (.resolveThen t2 (fun r => .ret ⟨t, r.getD 0⟩))) := by
    simp [as_resolver, ctxParent, get_constructor, lookupEntries, Option.or]
  have hgetp2 : get_constructor (as_resolver (ctxParent t t2 a)) t2
      = some (.prog (.ret ⟨t2, a⟩)) := by
    simp [as_resolver, ctxParent, get_constructor, lookupEntries, hne2, Option.or]
  constructor
  · rw [resolve_eq_prog (fuel + 1) _ t σ _ hgetc, resolveThen_eq_resolve,
      resolve_eq_prog fuel _ t2 σ _ hgetc2, evalProg_ret]
    simp [evalProg_ret, downcast_self]
  · rw [resolve_eq_prog (fuel + 1) _ t σ _ hgetp, resolveThen_eq_resolve,
      resolve_eq_prog fuel _ t2 σ _ hgetp2, evalProg_ret]
    simp [evalProg_ret, downcast_self]

/-- Claim C6: a registration call returns `Ok` exactly when the key had no
entry in this registry (and then the entry is inserted), and returns
`AlreadyRegistered` exactly when the key already had an entry. -/
theorem c6_registration_protocol (c : Container) (t : Ty) (e : Entry) :
    ((register_constructor c t e).1 = .ok ()
      ↔ lookupEntries c.constructors t = none)
    ∧ ((register_constructor c t e).1 = .error .alreadyRegistered
      ↔ lookupEntries c.constructors t ≠ none)
    ∧ (lookupEntries c.constructors t = none →
        lookupEntries (register_constructor c t e).2.constructors t = some e) := by
  have hf := insertC_fst c.constructors t e
  have hthird : lookupEntries (register_constructor c t e).2.constructors t = some e :=
    lookupEntries_insertC c.constructors t e
  cases h : lookupEntries c.constructors t with
  | none =>
    rw [h] at hf
    have hr : (register_constructor c t e).1 = .ok () := by
      simp only [register_constructor]
      rw [hf]
    refine ⟨?_, ?_, fun _ => hthird⟩
    · rw [hr]
      exact iff_of_true rfl rfl
    · rw [hr]
      exact iff_of_false (fun hx => Except.noConfusion hx) (fun hx => hx rfl)
  | some e0 =>
    rw [h] at hf
    have hr : (register_constructor c t e).1 = .error .alreadyRegistered := by
      simp only [register_constructor]
      rw [hf]
    refine ⟨?_, ?_, fun _ => hthird⟩
    · rw [hr]
      exact iff_of_false (fun hx => Except.noConfusion hx) (fun hx => Option.noConfusion hx)
    · rw [hr]
      exact iff_of_true rfl (fun hx => Option.noConfusion hx)

/-- Claim C7: when no entry for the requested type exists anywhere in the
registry chain, resolution terminates normally with the empty optional and
leaves the state untouched (no partial construction, no error); in
particular any resolution on a fresh parentless registry does so. -/
theorem c7_absent_lookup (root : GetCtor) (t : Ty) (σ : St) (fuel : Nat)
    (h : get_constructor root t = none) :
    resolve fuel root t σ = some (none, σ)
    ∧ ∀ t2 σ2 fuel2,
        resolve fuel2 (as_resolver Container.new) t2 σ2 = some (none, σ2) := by
  constructor
  · unfold resolve
    rw [h]
  · intro t2 σ2 fuel2
    unfold resolve
    simp [as_resolver, Container.new, get_constructor, lookupEntries]

/-- Claim C8: after a successful clone-registration of the value `v` for
type `t`, every resolution of `t` returns `some v` and leaves the state
unchanged, so repeated calls each yield an equal, independently owned copy
of the registered value. -/
theorem c8_clone_registration (c : Container) (t : Ty) (v : Nat) (fuel : Nat) (σ : St)
    (_h : (register_clone c t v).1 = .ok ()) :
    resolve fuel (as_resolver (register_clone c t v).2) t σ = some (some v, σ) := by
  have hlook : get_constructor (as_resolver (register_clone c t v).2) t
      = some (.prog (.ret ⟨t, v⟩)) := by
    simp [as_resolver, register_clone, register_constructor, get_constructor,
      lookupEntries_insertC, Option.or]
  unfold resolve
  rw [hlook]
  simp [evalProg, downcast_self]

/-- Evaluation of a constructor program depends on the resolver only
through `get_constructor`: two resolvers that agree on every lookup drive
every program to the same result. -/
theorem evalProg_congr (g g2 : GetCtor)
    (h : ∀ t, get_constructor g t = get_constructor g2 t) :
    ∀ fuel p σ, evalProg fuel p g σ = evalProg fuel p g2 σ := by
  intro fuel
  induction fuel with
  | zero =>
    intro p σ
    cases p with
    | ret d => rfl
    | fresh tag => rfl
    | resolveThen t k => rfl
  | succ f ih =>
    intro p σ
    cases p with
    | ret d => rfl
    | fresh tag => rfl
    | resolveThen t k =>
      have hres : resolve f g t σ = resolve f g2 t σ := by
        unfold resolve
        rw [h t]
        cases hg : get_constructor g2 t with
        | none => rfl
        | some e =>
          cases e with
          | prog p2 => simp only [ih]
          | singleton cl inner => simp only [ih]
      rw [resolveThen_eq_resolve f t k g σ, resolveThen_eq_resolve f t k g2 σ, hres]
      cases resolve f g2 t σ with
      | none => rfl
      | some r => exact ih _ _

/-- Resolution depends on the resolver only through `get_constructor`. -/
theorem resolve_congr (g g2 : GetCtor)
    (h : ∀ t, get_constructor g t = get_constructor g2 t)
    (fuel : Nat) (t : Ty) (σ : St) :
    resolve fuel g t σ = resolve fuel g2 t σ := by
  unfold resolve
  rw [h t]
  cases hg : get_constructor g2 t with
  | none => rfl
  | some e =>
    cases e with
    | prog p => simp only [evalProg_congr g g2 h fuel]
    | singleton cl inner => simp only [evalProg_congr g g2 h fuel]

/-- Claim C9: a child registry that holds its parent by borrowed reference
and one that holds the same parent as an owned value or behind a shared
`Arc` handle produce the same lookup result (same hit or miss, same
matched entry) and the same resolution result for every type. -/
theorem c9_parent_ownership_equiv (cs pcs : List (Ty × Entry)) (pp : GetCtor)
    (t : Ty) (fuel : Nat) (σ : St) :
    (get_constructor (.container cs (.contRef pcs pp)) t
       = get_constructor (.container cs (.arc (.container pcs pp))) t)
    ∧ (get_constructor (.container cs (.contRef pcs pp)) t
       = get_constructor (.container cs (.container pcs pp)) t)
    ∧ resolve fuel (.container cs (.contRef pcs pp)) t σ
       = resolve fuel (.container cs (.arc (.container pcs pp))) t σ
    ∧ resolve fuel (.container cs (.contRef pcs pp)) t σ
       = resolve fuel (.container cs (.container pcs pp)) t σ := by
  refine ⟨rfl, rfl, ?_, ?_⟩
  · exact resolve_congr (.container cs (.contRef pcs pp))
      (.container cs (.arc (.container pcs pp))) (fun t2 => rfl) fuel t σ
  · exact resolve_congr (.container cs (.contRef pcs pp))
      (.container cs (.container pcs pp)) (fun t2 => rfl) fuel t σ

/-- Claim C10: `register_singleton` for type `t` stores its entry under the
type key of `Arc<t>`: on an otherwise empty registry the registration
succeeds, resolving `Arc<t>` runs the inner constructor and returns the
constructed handle (populating the cell), while resolving `t` itself
returns `none` for every fuel and state. -/
theorem c10_singleton_key_is_arc
    (t : Ty) (cell : Nat) (inner : CProg) (fuel : Nat) (σ σ1 : St) (d : Dyn)
    (hcell : lookupN σ.cells cell = none)
    (hinner : evalProg fuel inner
        (as_resolver (register_singleton Container.new t cell inner).2) σ = some (d, σ1))
    (htag : d.tag = .arc t) :
    (register_singleton Container.new t cell inner).1 = .ok ()
    ∧ resolve fuel (as_resolver (register_singleton Container.new t cell inner).2)
        (.arc t) σ = some (some d.val, writeCell σ1 cell d)
    ∧ ∀ fuel2 σ2,
        resolve fuel2 (as_resolver (register_singleton Container.new t cell inner).2) t σ2
          = some (none, σ2) := by
  have hlook : get_constructor
      (as_resolver (register_singleton Container.new t cell inner).2) (.arc t)
      = some (.singleton cell inner) := by
    simp [as_resolver, register_singleton, register_constructor, Container.new,
      get_constructor, insertC, lookupEntries, Option.or]
  have hmiss : get_constructor
      (as_resolver (register_singleton Container.new t cell inner).2) t = none := by
    simp [as_resolver, register_singleton, register_constructor, Container.new,
      get_constructor, insertC, lookupEntries, Option.or, (arc_ne t).symm]
  refine ⟨rfl, ?_, ?_⟩
  · rw [resolve_eq_singleton fuel _ (.arc t) σ cell inner hlook]
    simp [hcell, hinner, downcast, htag]
  · intro fuel2 σ2
    exact resolve_eq_none fuel2 _ t σ2 hmiss

/-- Witness for claim C3 at a concrete input: a registry with one
singleton entry for the key `Arc<base 0>` whose cell is already populated
after a first resolution; a second resolution returns the same instance
and leaves the state unchanged. -/
theorem c3_witness :
    lookupN [(0, (⟨.arc (.base 0), 0⟩ : Dyn))] 0 = some ⟨.arc (.base 0), 0⟩
    ∧ resolve 2
        (.container [(.arc (.base 0), .singleton 0 (.fresh (.arc (.base 0))))] .unit)
        (.arc (.base 0)) ⟨[(0, ⟨.arc (.base 0), 0⟩)], 1⟩
      = some (some 0, ⟨[(0, ⟨.arc (.base 0), 0⟩)], 1⟩) := by
  have h := c3_singleton_sequential_identity
    (.container [(.arc (.base 0), .singleton 0 (.fresh (.arc (.base 0))))] .unit)
    (.arc (.base 0)) 0 (.fresh (.arc (.base 0)))
    ⟨[], 0⟩ ⟨[(0, ⟨.arc (.base 0), 0⟩)], 1⟩ 0 0 rfl rfl
  exact ⟨h.1, h.2 2⟩

/-- Witness for claim C4 at a concrete input: parent holds value 7 for the
key `base 0`; the child without a local entry resolves 7, and after
locally registering 9 resolves 9. -/
theorem c4_witness :
    get_constructor
      (as_resolver (with_parent
        (.contRef [(Ty.base 0, Entry.prog (.ret ⟨.base 0, 7⟩))] .unit))) (.base 0)
      = some (.prog (.ret ⟨.base 0, 7⟩))
    ∧ (register_clone (with_parent
        (.contRef [(Ty.base 0, Entry.prog (.ret ⟨.base 0, 7⟩))] .unit)) (.base 0) 9).1
      = .ok ()
    ∧ get_constructor
        (as_resolver (register_clone (with_parent
          (.contRef [(Ty.base 0, Entry.prog (.ret ⟨.base 0, 7⟩))] .unit)) (.base 0) 9).2)
        (.base 0)
      = some (.prog (.ret ⟨.base 0, 9⟩))
    ∧ resolve 0
        (as_resolver (with_parent
          (.contRef [(Ty.base 0, Entry.prog (.ret ⟨.base 0, 7⟩))] .unit))) (.base 0) ⟨[], 0⟩
      = some (some 7, ⟨[], 0⟩)
    ∧ resolve 0
        (as_resolver (register_clone (with_parent
          (.contRef [(Ty.base 0, Entry.prog (.ret ⟨.base 0, 7⟩))] .unit)) (.base 0) 9).2)
        (.base 0) ⟨[], 0⟩
      = some (some 9, ⟨[], 0⟩) := by
  have h := c4_child_shadowing
    ⟨[(Ty.base 0, Entry.prog (.ret ⟨.base 0, 7⟩))], .unit⟩ (.base 0)
    (.prog (.ret ⟨.base 0, 7⟩)) 9 ⟨[], 0⟩ 0 rfl
  exact ⟨h.1, h.2.1, h.2.2.1, h.2.2.2.1 7 rfl, h.2.2.2.2⟩

/-- Witness for claim C5 at a concrete input: the ancestor strategy for
`base 0` resolves `base 1`; through the child it obtains the local value
2, through the parent alone the value 1. -/
theorem c5_witness :
    resolve 1 (as_resolver (ctxChild (.base 0) (.base 1) 1 2)) (.base 0) ⟨[], 0⟩
      = some (some 2, ⟨[], 0⟩)
    ∧ resolve 1 (as_resolver (ctxParent (.base 0) (.base 1) 1)) (.base 0) ⟨[], 0⟩
      = some (some 1, ⟨[], 0⟩) :=
  c5_resolution_context (.base 0) (.base 1) 1 2 ⟨[], 0⟩ 0 (by decide)

/-- Witness for claim C6 at a concrete input: registering an entry for the
key `base 0` on an empty registry. -/
theorem c6_witness :
    ((register_constructor Container.new (.base 0) (.prog (.ret ⟨.base 0, 5⟩))).1 = .ok ()
      ↔ lookupEntries Container.new.constructors (.base 0) = none)
    ∧ ((register_constructor Container.new (.base 0) (.prog (.ret ⟨.base 0, 5⟩))).1
        = .error .alreadyRegistered
      ↔ lookupEntries Container.new.constructors (.base 0) ≠ none)
    ∧ (lookupEntries Container.new.constructors (.base 0) = none →
        lookupEntries
          (register_constructor Container.new (.base 0)
            (.prog (.ret ⟨.base 0, 5⟩))).2.constructors (.base 0)
          = some (.prog (.ret ⟨.base 0, 5⟩))) :=
  c6_registration_protocol Container.new (.base 0) (.prog (.ret ⟨.base 0, 5⟩))

/-- Witness for claim C7 at a concrete input: resolving through the empty
chain and through a fresh parentless registry. -/
theorem c7_witness :
    resolve 1 .unit (.base 3) ⟨[], 0⟩ = some (none, ⟨[], 0⟩)
    ∧ resolve 0 (as_resolver Container.new) (.base 1) ⟨[], 2⟩ = some (none, ⟨[], 2⟩) := by
  have h := c7_absent_lookup .unit (.base 3) ⟨[], 0⟩ 1 rfl
  exact ⟨h.1, h.2 (.base 1) ⟨[], 2⟩ 0⟩

/-- Witness for claim C8 at the concrete input of the spec scenario: `u32`
(modelled as the key `base 0`) clone-registered with 42 resolves to
`some 42`. -/
theorem c8_witness :
    resolve 0 (as_resolver (register_clone Container.new (.base 0) 42).2)
      (.base 0) ⟨[], 0⟩ = some (some 42, ⟨[], 0⟩) :=
  c8_clone_registration Container.new (.base 0) 42 0 ⟨[], 0⟩ rfl

/-- Witness for claim C10 at a concrete input: a singleton registration
for `base 0` on an empty registry resolves under `Arc<base 0>` but not
under `base 0`. -/
theorem c10_witness :
    (register_singleton Container.new (.base 0) 0 (.fresh (.arc (.base 0)))).1 = .ok ()
    ∧ resolve 0
        (as_resolver (register_singleton Container.new (.base 0) 0
          (.fresh (.arc (.base 0)))).2)
        (.arc (.base 0)) ⟨[], 0⟩
      = some (some 0, writeCell ⟨[], 1⟩ 0 ⟨.arc (.base 0), 0⟩)
    ∧ resolve 0
        (as_resolver (register_singleton Container.new (.base 0) 0
          (.fresh (.arc (.base 0)))).2)
        (.base 0) ⟨[], 5⟩
      = some (none, ⟨[], 5⟩) := by
  have h := c10_singleton_key_is_arc (.base 0) 0 (.fresh (.arc (.base 0))) 0
    ⟨[], 0⟩ ⟨[], 1⟩ ⟨.arc (.base 0), 0⟩ rfl rfl rfl
  exact ⟨h.1, h.2.1, h.2.2 0 ⟨[], 5⟩⟩

end MiniDi
